import Mathlib

/-!
# Verification of the batching HTTP span collector (`collector-http.go`)

Shallow embedding of the asynchronous, batching span exporter of
`zipkin-go-opentracing`.  Spans are opaque to the collector (it only
buffers, orders and forwards them), so they are modelled as `Nat`.
Durations and instants are modelled as `Nat` nanoseconds, matching Go's
`time.Duration`/`time.Time` arithmetic used by the source.

The collector's mutable state (`HTTPCollector` struct) is modelled by
`CState`.  Besides the fields of the Go struct we carry observation
history ("ghost" fields) that record what the code reports to the
diagnostic sink (`logs`), which snapshots were handed to the transport
(`attempts`), which batches were removed after a successful delivery
(`delivered`), every span ever appended (`appended`) and the total
eviction count (`evictedCount`).  These fields only record what the
source code does; they never influence control flow.

The HTTP transport (`http.NewRequest` + `client.Do`) is external to the
core and is modelled as a parameter `f : List Nat → Option String`
giving the outcome of `send` on a snapshot (`none` = success,
`some e` = the error returned by the transport).
-/

namespace ZipkinCollector

/-- One nanosecond-resolution second, as in Go's `time.Second`. -/
def timeSecond : Nat := 1000000000

/-- `const defaultHTTPTimeout = time.Second * 5`. -/
def defaultHTTPTimeout : Nat := timeSecond * 5

/-- `const defaultHTTPBatchInterval = 1` (seconds; multiplied by
`time.Second` at construction). -/
def defaultHTTPBatchInterval : Nat := 1

/-- `const defaultBatchSize = 100`. -/
def defaultBatchSize : Nat := 100

/-- `const defaultMaxBacklog = 1000`. -/
def defaultMaxBacklog : Nat := 1000

/-- An entry reported to the diagnostic sink (the `Logger`).  The source
logs exactly two kinds of events: the eviction count when the backlog
overflows (`append`) and the error text when a send fails (`sendNow`). -/
inductive LogEvent where
  | disposed (count : Nat)
  | sendError (msg : String)
deriving Repr, DecidableEq

/-- The collector state: the fields of the Go `HTTPCollector` struct that
the core logic reads or writes, plus ghost observation history.
`client.Timeout` is `timeout`; the channels, mutexes and goroutine are
modelled by the step functions below and by the mutex transition system
`MState`. -/
structure CState where
  url : String
  timeout : Nat
  nextSend : Nat
  batchInterval : Nat
  batchSize : Nat
  maxBacklog : Nat
  batch : List Nat
  /-- ghost: everything reported to the diagnostic sink, in order. -/
  logs : List LogEvent
  /-- ghost: every span ever appended, in arrival order. -/
  appended : List Nat
  /-- ghost: the snapshot of every nonempty send attempt, in order. -/
  attempts : List (List Nat)
  /-- ghost: the batches removed from the buffer after transport success. -/
  delivered : List (List Nat)
  /-- ghost: total number of spans evicted by backlog overflow. -/
  evictedCount : Nat
deriving Repr, DecidableEq

/-- The collector built by `NewHTTPCollector` before options are applied:
nop logger, 5s timeout, 1s batch interval, batch size 100, max backlog
1000, empty batch. -/
def initialCollector (url : String) : CState :=
  { url := url
    timeout := defaultHTTPTimeout
    nextSend := 0
    batchInterval := defaultHTTPBatchInterval * timeSecond
    batchSize := defaultBatchSize
    maxBacklog := defaultMaxBacklog
    batch := []
    logs := []
    appended := []
    attempts := []
    delivered := []
    evictedCount := 0 }

/-- An `HTTPOption` is a mutation of the collector under construction. -/
def HTTPOption : Type := CState → CState

/-- `HTTPTimeout` sets the http client timeout. -/
def HTTPTimeout (d : Nat) : HTTPOption := fun c => { c with timeout := d }

/-- `HTTPBatchSize` sets the count-trigger threshold. -/
def HTTPBatchSize (n : Nat) : HTTPOption := fun c => { c with batchSize := n }

/-- `HTTPMaxBacklog` sets the backlog capacity. -/
def HTTPMaxBacklog (n : Nat) : HTTPOption := fun c => { c with maxBacklog := n }

/-- `HTTPBatchInterval` sets the time-trigger period. -/
def HTTPBatchInterval (d : Nat) : HTTPOption := fun c => { c with batchInterval := d }

/-- `scheduleNextSend`: `c.nextSend = time.Now().Add(c.batchInterval)`. -/
def scheduleNextSend (c : CState) (now : Nat) : CState :=
  { c with nextSend := now + c.batchInterval }

/-- `NewHTTPCollector`: builds the default collector, applies the options
in order, schedules the first send and returns `(collector, nil)`.  The
source performs no validation whatsoever on `url` and its only `return`
statement returns a nil error. -/
def NewHTTPCollector (now : Nat) (url : String) (options : List HTTPOption) :
    CState × Option String :=
  let c := options.foldl (fun c option => option c) (initialCollector url)
  (scheduleNextSend c now, none)

/-- `Collect`: sends the span into the loop's inbox channel (the append
itself happens in the dispatch loop) and unconditionally returns nil. -/
def Collect (_c : CState) (_s : Nat) : Option String := none

/-- `append`: under the batch mutex, add `span` at the tail; if the new
length exceeds `maxBacklog`, log the dispose count and drop that many
elements from the head; return the resulting batch length. -/
def appendSpan (c : CState) (s : Nat) : CState × Nat :=
  let b := c.batch ++ [s]
  let c0 := { c with appended := c.appended ++ [s] }
  if c0.maxBacklog < b.length then
    let dispose := b.length - c0.maxBacklog
    let c1 := { c0 with
      batch := b.drop dispose
      logs := c0.logs ++ [LogEvent.disposed dispose]
      evictedCount := c0.evictedCount + dispose }
    (c1, c1.batch.length)
  else
    ({ c0 with batch := b }, b.length)

/-- `currentBatchSize`: length of the batch under the batch mutex. -/
def currentBatchSize (c : CState) : Nat := c.batch.length

/-- `sendNow` with the transport outcome given by `f`: snapshot the whole
batch under the batch mutex; return with no side effect when it is
empty; otherwise call `send` on the snapshot.  On error, log it and
leave the batch untouched; on success, drop the first
`len(sendBatch)` elements from the head of the batch. -/
def sendNow (f : List Nat → Option String) (c : CState) : CState :=
  let sendBatch := c.batch
  if sendBatch.length = 0 then c
  else
    match f sendBatch with
    | some e =>
        { c with
          logs := c.logs ++ [LogEvent.sendError e]
          attempts := c.attempts ++ [sendBatch] }
    | none =>
        { c with
          batch := c.batch.drop sendBatch.length
          attempts := c.attempts ++ [sendBatch]
          delivered := c.delivered ++ [sendBatch] }

/-- The dispatch loop's span-arrival branch: append; if the new batch
size has reached `batchSize`, reschedule the deadline and launch
`sendNow` (the launched send is executed here immediately after the
reschedule, sequentialising the `go c.sendNow()` goroutine).  The
returned flag records whether a send was launched by this arrival. -/
def processArrival (f : List Nat → Option String) (c : CState) (now : Nat)
    (s : Nat) : CState × Bool :=
  let r := appendSpan c s
  if r.1.batchSize ≤ r.2 then
    (sendNow f (scheduleNextSend r.1 now), true)
  else
    (r.1, false)

/-- The dispatch loop's tick branch: `time.Now().After(c.nextSend)` is
the strict comparison `nextSend < now`; when it holds, reschedule and
launch a send exactly as the arrival branch does. -/
def processTick (f : List Nat → Option String) (c : CState) (now : Nat) :
    CState × Bool :=
  if c.nextSend < now then
    (sendNow f (scheduleNextSend c now), true)
  else
    (c, false)

/-- The period of the loop's ticker: `time.NewTicker(c.batchInterval / 10)`. -/
def tickPeriod (c : CState) : Nat := c.batchInterval / 10

/-- The dispatch loop's quit branch: run `sendNow` synchronously, then
push the loop-local `err` variable on the shutdown channel and return.
In the source `err` is declared (`var err error`) and never assigned —
`sendNow` has no return value — so the value handed to `Close` is
always nil.  The second component is that shutdown value. -/
def processQuit (f : List Nat → Option String) (c : CState) :
    CState × Option String :=
  (sendNow f c, none)

/-- `Close`: signal quit and block on the shutdown channel; its result is
the value the quit branch pushed. -/
def Close (f : List Nat → Option String) (c : CState) : CState × Option String :=
  processQuit f c

/-- Fold `appendSpan` over a list of spans (arrivals handled by the loop
with no flush trigger firing in between). -/
def appendAll (c : CState) (xs : List Nat) : CState :=
  xs.foldl (fun c s => (appendSpan c s).1) c

/-- Process a list of arrivals through the loop's arrival branch,
counting how many of them launched a send. -/
def runArrivals (f : List Nat → Option String) (now : Nat) (c : CState) :
    List Nat → CState × Nat
  | [] => (c, 0)
  | s :: rest =>
      let r := processArrival f c now s
      let rec' := runArrivals f now r.1 rest
      (rec'.1, (if r.2 then 1 else 0) + rec'.2)

/-- An event of the buffer/sender discipline: a span appended by the
loop, or one full `sendNow` execution whose transport outcome is `ok`
(the snapshot-send-remove sequence runs with no interleaved append,
which is the regime claim C2 is about). -/
inductive Op where
  | arrive (s : Nat)
  | flush (ok : Bool)
deriving Repr, DecidableEq

/-- One step of the buffer/sender discipline. -/
def opStep (c : CState) : Op → CState
  | Op.arrive s => (appendSpan c s).1
  | Op.flush ok => sendNow (fun _ => if ok then none else some "transport error") c

/-- Run a trace of buffer/sender events. -/
def runOps (c : CState) (ops : List Op) : CState :=
  ops.foldl opStep c

/-- The spans appended by a trace, in arrival order. -/
def opsSpans (ops : List Op) : List Nat :=
  ops.filterMap (fun o => match o with
    | Op.arrive s => some s
    | Op.flush _ => none)

/-- The invariant relating the ghost history to the buffer: everything
appended is either already delivered (in order) or still buffered. -/
def BufInv (c : CState) : Prop :=
  c.delivered.flatten ++ c.batch = c.appended

/-! ### Serialization (`httpSerialize`) -/

/-- The outcome of `httpSerialize`: either the serialized payload, or a
process abort — the Go function wraps every thrift write error in
`panic(err)`. -/
inductive SerOutcome where
  | ok (payload : List Nat)
  | panicked (msg : String)
deriving Repr, DecidableEq

/-- `WriteListBegin(thrift.STRUCT, len(spans))` on the binary protocol:
the element-type byte (STRUCT = 12) followed by the list size. -/
def listBeginBytes (n : Nat) : List Nat := [12, n]

/-- Write each span with its thrift `Write` method (`enc`), aborting on
the first write error exactly as the source's `panic(err)` does. -/
def writeSpans (enc : Nat → Except String (List Nat)) (acc : List Nat) :
    List Nat → SerOutcome
  | [] => SerOutcome.ok acc
  | s :: rest =>
      match enc s with
      | Except.error e => SerOutcome.panicked e
      | Except.ok bs => writeSpans enc (acc ++ bs) rest

/-- `httpSerialize`: write the list header, then every span in order; any
write error is passed to `panic`, aborting the process instead of
returning an error result. -/
def httpSerialize (enc : Nat → Except String (List Nat)) (spans : List Nat) :
    SerOutcome :=
  writeSpans enc (listBeginBytes spans.length) spans

/-! ### The `send` function over an abstract HTTP layer -/

/-- The external HTTP layer of `send`: the outcome of
`http.NewRequest("POST", url, body)` for a given url, and the outcome of
`client.Do(req)` for a request built from a url and a span snapshot. -/
structure Transport where
  newRequestErr : String → Option String
  doErr : String → List Nat → Option String

/-- `send`: build the POST request — returning the request-construction
error when the url is unusable — and otherwise return the outcome of
`client.Do`. -/
def send (T : Transport) (url : String) (spans : List Nat) : Option String :=
  match T.newRequestErr url with
  | some e => some e
  | none => T.doErr url spans

/-! ### The send-mutex (`sendMutex`) transition system

`sendNow` brackets its whole body in `sendMutex.Lock()` /
`defer sendMutex.Unlock()`.  Each `go c.sendNow()` launch is a task that
must first acquire the mutex, then runs the serialize-and-transport
section, then releases.  The state counts the tasks in each phase. -/

/-- Population counts of concurrent `sendNow` tasks: blocked on
`sendMutex.Lock()`, inside the locked serialize-and-transport body, and
already returned; `locked` is the mutex state. -/
structure MState where
  waiting : Nat
  sending : Nat
  finished : Nat
  locked : Bool
deriving Repr, DecidableEq

/-- The collector starts with no send in flight and the mutex free. -/
def MState.start : MState :=
  { waiting := 0, sending := 0, finished := 0, locked := false }

/-- Interleaved execution steps of `sendNow` tasks: a flush trigger
spawns a task; a blocked task acquires the free mutex and enters the
body; a task in the body finishes and releases the mutex. -/
inductive MStep : MState → MState → Prop
  | spawn (s : MState) :
      MStep s { s with waiting := s.waiting + 1 }
  | acquire (s : MState) :
      s.locked = false → 0 < s.waiting →
      MStep s { s with waiting := s.waiting - 1, sending := s.sending + 1,
                       locked := true }
  | release (s : MState) :
      0 < s.sending →
      MStep s { s with sending := s.sending - 1, finished := s.finished + 1,
                       locked := false }

/-- States reachable from the collector's start state. -/
inductive MReach : MState → Prop
  | start : MReach MState.start
  | step {s t : MState} : MReach s → MStep s t → MReach t

/-! ### Concrete instances used by counterexamples and witnesses -/

/-- A transport whose delivery always fails. -/
def failingTransport : List Nat → Option String :=
  fun _ => some "connection refused"

/-- A transport whose delivery always succeeds. -/
def okTransport : List Nat → Option String :=
  fun _ => none

/-- A collector with one span buffered, about to be closed. -/
def cexC1 : CState :=
  { initialCollector "http://zipkin:9411/api/v1/spans" with batch := [7] }

/-- A collector with a batch of size 3 for the count-trigger tests. -/
def cexBS3 : CState :=
  { initialCollector "http://zipkin:9411/api/v1/spans" with batchSize := 3 }

/-- A collector with count threshold 1 and a 100ns interval. -/
def cexC6 : CState :=
  { initialCollector "http://zipkin:9411/api/v1/spans" with
      batchSize := 1, batchInterval := 100 }

/-- A collector with two spans pending, below the default threshold. -/
def cexC3 : CState :=
  { initialCollector "http://zipkin:9411/api/v1/spans" with batch := [1, 2] }

/-- A collector with capacity 2 holding a full buffer. -/
def cexC4 : CState :=
  { initialCollector "http://zipkin:9411/api/v1/spans" with
      maxBacklog := 2, batch := [1, 2], appended := [1, 2] }

/-- A transport layer that rejects the destination URL at
request-construction time. -/
def badURLTransport : Transport :=
  { newRequestErr := fun _ => some "parse error: missing protocol scheme"
    doErr := fun _ _ => none }

/-- A span encoder whose thrift `Write` always fails. -/
def encFail : Nat → Except String (List Nat) :=
  fun _ => Except.error "thrift write failed"

/-- A span encoder that encodes a span as a single byte. -/
def encOk : Nat → Except String (List Nat) :=
  fun s => Except.ok [s]

/-- A collector built on a malformed destination URL, one span pending. -/
def cexC10 : CState :=
  { initialCollector ":" with batch := [5] }

/-! ## Helper lemmas -/

theorem appendSpan_of_le (c : CState) (s : Nat)
    (h : c.batch.length + 1 ≤ c.maxBacklog) :
    appendSpan c s =
      ({ c with batch := c.batch ++ [s], appended := c.appended ++ [s] },
       c.batch.length + 1) := by
  simp only [appendSpan, List.length_append, List.length_singleton]
  rw [if_neg (by omega)]

theorem appendSpan_of_evict (c : CState) (s : Nat)
    (h : c.maxBacklog < c.batch.length + 1) :
    appendSpan c s =
      ({ c with
          batch := (c.batch ++ [s]).drop (c.batch.length + 1 - c.maxBacklog)
          appended := c.appended ++ [s]
          logs := c.logs ++ [LogEvent.disposed (c.batch.length + 1 - c.maxBacklog)]
          evictedCount := c.evictedCount + (c.batch.length + 1 - c.maxBacklog) },
       c.maxBacklog) := by
  simp only [appendSpan, List.length_append, List.length_singleton]
  rw [if_pos (by omega)]
  simp only [Prod.mk.injEq, List.length_drop, List.length_append,
    List.length_singleton]
  exact ⟨trivial, by omega⟩

theorem appendSpan_batchSize (c : CState) (s : Nat) :
    (appendSpan c s).1.batchSize = c.batchSize := by
  simp only [appendSpan]
  split <;> rfl

theorem appendSpan_maxBacklog (c : CState) (s : Nat) :
    (appendSpan c s).1.maxBacklog = c.maxBacklog := by
  simp only [appendSpan]
  split <;> rfl

theorem appendSpan_batchInterval (c : CState) (s : Nat) :
    (appendSpan c s).1.batchInterval = c.batchInterval := by
  simp only [appendSpan]
  split <;> rfl

theorem appendSpan_attempts (c : CState) (s : Nat) :
    (appendSpan c s).1.attempts = c.attempts := by
  simp only [appendSpan]
  split <;> rfl

theorem appendSpan_delivered (c : CState) (s : Nat) :
    (appendSpan c s).1.delivered = c.delivered := by
  simp only [appendSpan]
  split <;> rfl

theorem appendSpan_evicted_le (c : CState) (s : Nat) :
    c.evictedCount ≤ (appendSpan c s).1.evictedCount := by
  simp only [appendSpan]
  split
  · simp only []
    omega
  · exact Nat.le_refl _

theorem appendSpan_length_le (c : CState) (s : Nat) :
    (appendSpan c s).1.batch.length ≤ c.maxBacklog := by
  by_cases h : c.batch.length + 1 ≤ c.maxBacklog
  · rw [appendSpan_of_le c s h]
    simpa using h
  · rw [appendSpan_of_evict c s (by omega)]
    simp only [List.length_drop, List.length_append, List.length_singleton]
    omega

theorem sendNow_of_empty (f : List Nat → Option String) (c : CState)
    (h : c.batch = []) :
    sendNow f c = c := by
  simp only [sendNow]
  rw [if_pos (by simp [h])]

theorem sendNow_of_fail (f : List Nat → Option String) (c : CState) (e : String)
    (hne : c.batch ≠ []) (hf : f c.batch = some e) :
    sendNow f c =
      { c with
          logs := c.logs ++ [LogEvent.sendError e]
          attempts := c.attempts ++ [c.batch] } := by
  simp only [sendNow]
  rw [if_neg (by simp [List.length_eq_zero, hne]), hf]

theorem sendNow_of_ok (f : List Nat → Option String) (c : CState)
    (hne : c.batch ≠ []) (hf : f c.batch = none) :
    sendNow f c =
      { c with
          batch := c.batch.drop c.batch.length
          attempts := c.attempts ++ [c.batch]
          delivered := c.delivered ++ [c.batch] } := by
  simp only [sendNow]
  rw [if_neg (by simp [List.length_eq_zero, hne]), hf]

theorem sendNow_nextSend (f : List Nat → Option String) (c : CState) :
    (sendNow f c).nextSend = c.nextSend := by
  simp only [sendNow]
  split
  · rfl
  · cases f c.batch <;> rfl

theorem sendNow_length_le (f : List Nat → Option String) (c : CState) :
    (sendNow f c).batch.length ≤ c.batch.length := by
  simp only [sendNow]
  split
  · exact Nat.le_refl _
  · cases f c.batch
    · simp
    · exact Nat.le_refl _

theorem sendNow_evictedCount (f : List Nat → Option String) (c : CState) :
    (sendNow f c).evictedCount = c.evictedCount := by
  simp only [sendNow]
  split
  · rfl
  · cases f c.batch <;> rfl

theorem sendNow_appended (f : List Nat → Option String) (c : CState) :
    (sendNow f c).appended = c.appended := by
  simp only [sendNow]
  split
  · rfl
  · cases f c.batch <;> rfl

theorem appendAll_cons (c : CState) (s : Nat) (xs : List Nat) :
    appendAll c (s :: xs) = appendAll (appendSpan c s).1 xs := rfl

theorem appendAll_append_singleton (c : CState) (xs : List Nat) (s : Nat) :
    appendAll c (xs ++ [s]) = (appendSpan (appendAll c xs) s).1 := by
  simp [appendAll, List.foldl_append]

theorem appendAll_maxBacklog (xs : List Nat) :
    ∀ c : CState, (appendAll c xs).maxBacklog = c.maxBacklog := by
  induction xs with
  | nil => intro c; rfl
  | cons s rest ih =>
      intro c
      rw [appendAll_cons, ih, appendSpan_maxBacklog]

theorem appendAll_attempts (xs : List Nat) :
    ∀ c : CState, (appendAll c xs).attempts = c.attempts := by
  induction xs with
  | nil => intro c; rfl
  | cons s rest ih =>
      intro c
      rw [appendAll_cons, ih, appendSpan_attempts]

theorem appendAll_delivered (xs : List Nat) :
    ∀ c : CState, (appendAll c xs).delivered = c.delivered := by
  induction xs with
  | nil => intro c; rfl
  | cons s rest ih =>
      intro c
      rw [appendAll_cons, ih, appendSpan_delivered]

theorem appendAll_no_evict (xs : List Nat) :
    ∀ c : CState, c.batch.length + xs.length ≤ c.maxBacklog →
    appendAll c xs =
      { c with batch := c.batch ++ xs, appended := c.appended ++ xs } := by
  induction xs with
  | nil =>
      intro c _
      simp [appendAll]
  | cons s rest ih =>
      intro c h
      have hlen : c.batch.length + 1 ≤ c.maxBacklog := by
        simp only [List.length_cons] at h
        omega
      rw [appendAll_cons, appendSpan_of_le c s hlen]
      rw [ih _ (by
        simp only [List.length_append, List.length_singleton,
          List.length_cons, List.length_nil] at h ⊢
        omega)]
      simp [List.append_assoc]

theorem drop_snoc_one {α : Type} (A : List α) (s : α) (n : Nat)
    (h1 : n + 1 ≤ A.length) :
    ((A.drop n ++ [s]).drop 1) = (A ++ [s]).drop (n + 1) := by
  rw [List.drop_append_eq_append_drop, List.drop_append_eq_append_drop]
  rw [List.drop_drop]
  rw [show 1 - (A.drop n).length = 0 by
    simp only [List.length_drop]; omega]
  rw [show n + 1 - A.length = 0 by omega]

theorem appendAll_overflow (xs : List Nat) :
    ∀ c : CState, c.batch.length ≤ c.maxBacklog →
    (appendAll c xs).batch =
      (c.batch ++ xs).drop (c.batch.length + xs.length - c.maxBacklog) ∧
    (appendAll c xs).evictedCount =
      c.evictedCount + (c.batch.length + xs.length - c.maxBacklog) := by
  induction xs using List.reverseRecOn with
  | nil =>
      intro c h
      constructor
      · rw [show c.batch.length + [].length - c.maxBacklog = 0 by
          simp only [List.length_nil]; omega]
        simp [appendAll]
      · rw [show c.batch.length + [].length - c.maxBacklog = 0 by
          simp only [List.length_nil]; omega]
        simp [appendAll]
  | append_singleton ys s ih =>
      intro c h
      obtain ⟨hb, he⟩ := ih c h
      have hblen : (appendAll c ys).batch.length =
          c.batch.length + ys.length - (c.batch.length + ys.length - c.maxBacklog) := by
        rw [hb]
        simp [List.length_drop]
      have hmax : (appendAll c ys).maxBacklog = c.maxBacklog := appendAll_maxBacklog ys c
      rw [appendAll_append_singleton]
      by_cases hc : (appendAll c ys).batch.length + 1 ≤ c.maxBacklog
      · -- the final append does not overflow: nothing was ever evicted
        have hz : c.batch.length + ys.length - c.maxBacklog = 0 := by omega
        have hz2 : c.batch.length + (ys ++ [s]).length - c.maxBacklog = 0 := by
          simp only [List.length_append, List.length_singleton]
          omega
        rw [appendSpan_of_le _ s (by rw [hmax]; exact hc)]
        constructor
        · rw [hz2, List.drop_zero, hb, hz, List.drop_zero, List.append_assoc]
        · rw [hz2, Nat.add_zero, he, hz, Nat.add_zero]
      · -- the final append overflows: it evicts exactly one span
        have hfull : (appendAll c ys).batch.length = c.maxBacklog := by omega
        have hge : c.maxBacklog ≤ c.batch.length + ys.length := by omega
        rw [appendSpan_of_evict _ s (by omega)]
        have hdisp : (appendAll c ys).batch.length + 1 - (appendAll c ys).maxBacklog = 1 := by
          rw [hmax]; omega
        dsimp only
        constructor
        · rw [hdisp, hb]
          rcases Nat.eq_zero_or_pos c.maxBacklog with hm0 | hmpos
          · -- capacity zero: everything is evicted, both sides are empty
            have hL : ((c.batch ++ ys).drop
                (c.batch.length + ys.length - c.maxBacklog)) = [] := by
              apply List.drop_of_length_le
              simp only [List.length_append]
              omega
            rw [hL]
            have hR : ((c.batch ++ (ys ++ [s])).drop
                (c.batch.length + (ys ++ [s]).length - c.maxBacklog)) = [] := by
              apply List.drop_of_length_le
              simp only [List.length_append, List.length_singleton]
              omega
            rw [hR]
            simp
          · -- capacity positive: drop one more from the head
            have hN : c.batch.length + (ys ++ [s]).length - c.maxBacklog =
                (c.batch.length + ys.length - c.maxBacklog) + 1 := by
              simp only [List.length_append, List.length_singleton]
              omega
            rw [hN]
            rw [drop_snoc_one (c.batch ++ ys) s
              (c.batch.length + ys.length - c.maxBacklog) (by
                simp only [List.length_append]
                omega)]
            rw [List.append_assoc]
        · rw [hdisp, he]
          simp only [List.length_append, List.length_singleton]
          omega

theorem appendSpan_appended (c : CState) (s : Nat) :
    (appendSpan c s).1.appended = c.appended ++ [s] := by
  simp only [appendSpan]
  split <;> rfl

theorem runArrivals_no_trigger (xs : List Nat) :
    ∀ (c : CState) (f : List Nat → Option String) (now : Nat),
    c.batch.length + xs.length < c.batchSize →
    c.batch.length + xs.length ≤ c.maxBacklog →
    runArrivals f now c xs =
      ({ c with batch := c.batch ++ xs, appended := c.appended ++ xs }, 0) := by
  induction xs with
  | nil =>
      intro c f now _ _
      simp [runArrivals]
  | cons s rest ih =>
      intro c f now h1 h2
      have hlen : c.batch.length + 1 ≤ c.maxBacklog := by
        simp only [List.length_cons] at h2
        omega
      have hbs : ¬ c.batchSize ≤ c.batch.length + 1 := by
        simp only [List.length_cons] at h1
        omega
      simp only [runArrivals, processArrival, appendSpan_of_le c s hlen]
      rw [if_neg hbs]
      rw [ih _ f now
        (by
          simp only [List.length_append, List.length_singleton,
            List.length_cons, List.length_nil] at h1 ⊢
          omega)
        (by
          simp only [List.length_append, List.length_singleton,
            List.length_cons, List.length_nil] at h2 ⊢
          omega)]
      simp [List.append_assoc]

theorem opStep_evicted_le (c : CState) (o : Op) :
    c.evictedCount ≤ (opStep c o).evictedCount := by
  cases o with
  | arrive s => exact appendSpan_evicted_le c s
  | flush ok => simp [opStep, sendNow_evictedCount]

theorem runOps_evicted_le (ops : List Op) :
    ∀ c : CState, c.evictedCount ≤ (runOps c ops).evictedCount := by
  induction ops with
  | nil => intro c; exact Nat.le_refl _
  | cons o rest ih =>
      intro c
      exact Nat.le_trans (opStep_evicted_le c o) (ih (opStep c o))

theorem opStep_inv (c : CState) (o : Op) (hI : BufInv c)
    (hE : (opStep c o).evictedCount = c.evictedCount) :
    BufInv (opStep c o) := by
  cases o with
  | arrive s =>
      by_cases hc : c.batch.length + 1 ≤ c.maxBacklog
      · show BufInv (appendSpan c s).1
        rw [appendSpan_of_le c s hc]
        unfold BufInv at hI ⊢
        dsimp only
        rw [← List.append_assoc, hI]
      · exfalso
        rw [show opStep c (Op.arrive s) = (appendSpan c s).1 from rfl,
          appendSpan_of_evict c s (by omega)] at hE
        dsimp only at hE
        omega
  | flush ok =>
      show BufInv (sendNow _ c)
      by_cases hb : c.batch = []
      · rw [sendNow_of_empty _ c hb]
        exact hI
      · cases ok with
        | true =>
            rw [sendNow_of_ok _ c hb rfl]
            unfold BufInv at hI ⊢
            dsimp only
            simp only [List.flatten_append, List.flatten_cons,
              List.flatten_nil, List.drop_length, List.append_nil,
              List.append_assoc]
            simpa using hI
        | false =>
            rw [sendNow_of_fail _ c "transport error" hb rfl]
            exact hI

theorem runOps_cons (c : CState) (o : Op) (rest : List Op) :
    runOps c (o :: rest) = runOps (opStep c o) rest := rfl

theorem runOps_inv (ops : List Op) :
    ∀ c : CState, BufInv c →
    (runOps c ops).evictedCount = c.evictedCount →
    BufInv (runOps c ops) := by
  induction ops with
  | nil => intro c hI _; exact hI
  | cons o rest ih =>
      intro c hI hE
      have h1 : c.evictedCount ≤ (opStep c o).evictedCount :=
        opStep_evicted_le c o
      have h2 : (opStep c o).evictedCount ≤ (runOps (opStep c o) rest).evictedCount :=
        runOps_evicted_le rest (opStep c o)
      rw [runOps_cons] at hE ⊢
      exact ih (opStep c o) (opStep_inv c o hI (by omega)) (by omega)

theorem runOps_appended (ops : List Op) :
    ∀ c : CState, (runOps c ops).appended = c.appended ++ opsSpans ops := by
  induction ops with
  | nil => intro c; simp [runOps, opsSpans]
  | cons o rest ih =>
      intro c
      rw [runOps_cons, ih]
      cases o with
      | arrive s =>
          show (appendSpan c s).1.appended ++ opsSpans rest = _
          rw [appendSpan_appended]
          simp [opsSpans, List.filterMap_cons, List.append_assoc]
      | flush ok =>
          show (sendNow _ c).appended ++ opsSpans rest = _
          rw [sendNow_appended]
          simp [opsSpans, List.filterMap_cons]

theorem mreach_locked_sending {s : MState} (h : MReach s) :
    s.sending = (if s.locked then 1 else 0) := by
  induction h with
  | start => rfl
  | step _ hstep ih =>
      cases hstep with
      | spawn => simpa using ih
      | acquire h1 _ =>
          rw [h1] at ih
          simp only [Bool.false_eq_true, if_false] at ih
          simp [ih]
      | release h1 =>
          simp only [Bool.false_eq_true, if_false]
          split at ih <;> omega

theorem close_drain (g : List Nat → Option String) (c2 : CState)
    (hne2 : c2.batch ≠ []) :
    (Close g c2).2 = none ∧
    (Close g c2).1.attempts = c2.attempts ++ [c2.batch] ∧
    (g c2.batch = none →
      (Close g c2).1.delivered = c2.delivered ++ [c2.batch] ∧
      (Close g c2).1.batch = []) := by
  refine ⟨rfl, ?_, ?_⟩
  · cases hg : g c2.batch with
    | none =>
        rw [show (Close g c2).1 = sendNow g c2 from rfl,
          sendNow_of_ok g c2 hne2 hg]
    | some e =>
        rw [show (Close g c2).1 = sendNow g c2 from rfl,
          sendNow_of_fail g c2 e hne2 hg]
  · intro hg
    rw [show (Close g c2).1 = sendNow g c2 from rfl,
      sendNow_of_ok g c2 hne2 hg]
    exact ⟨rfl, by simp [List.drop_length]⟩

theorem processArrival_launch_nextSend (f : List Nat → Option String)
    (c : CState) (now s : Nat) :
    (processArrival f c now s).2 = true →
    (processArrival f c now s).1.nextSend = now + c.batchInterval := by
  simp only [processArrival]
  split
  · intro _
    simp only [sendNow_nextSend, scheduleNextSend, appendSpan_batchInterval]
  · intro h
    simp at h

theorem processTick_fires_iff (f : List Nat → Option String) (c : CState)
    (now : Nat) :
    (processTick f c now).2 = true ↔ c.nextSend < now := by
  simp only [processTick]
  split
  next h => simp [h]
  next h => simp [h]

theorem processTick_launch_nextSend (f : List Nat → Option String)
    (c : CState) (now : Nat) :
    (processTick f c now).2 = true →
    (processTick f c now).1.nextSend = now + c.batchInterval := by
  simp only [processTick]
  split
  · intro _
    simp only [sendNow_nextSend, scheduleNextSend]
  · intro h
    simp at h

/-! ## Claim theorems -/

/-- C1, counterexample: a collector with one buffered span whose final
drain fails still hands nil to the caller of `Close`: the failure is
reported only to the diagnostic sink, refuting the claim that `Close`
returns the final flush's error.  (`loop` declares `var err error`,
never assigns it — `sendNow` returns nothing — and pushes it on the
shutdown channel.) -/
theorem C1_close_swallows_drain_error :
    (Close failingTransport cexC1).1.logs =
      [LogEvent.sendError "connection refused"] ∧
    (Close failingTransport cexC1).2 = none := by
  constructor <;> rfl

/-- C1, amended: `Close` blocks until the final synchronous drain
attempt has completed, and then always returns nil; a shutdown-time
delivery failure is never propagated to the `Close` caller. -/
theorem C1_close_blocks_and_returns_nil (f : List Nat → Option String)
    (c : CState) :
    (Close f c).1 = sendNow f c ∧ (Close f c).2 = none :=
  ⟨rfl, rfl⟩

/-- C5: an arrival launches a send exactly when the post-append batch
size has reached `batchSize`; with threshold 3, appending three spans
launches exactly one flush attempt containing exactly those three
spans, and appending two launches none. -/
theorem C5_count_trigger_exactness :
    (∀ (f : List Nat → Option String) (c : CState) (now s : Nat),
        (processArrival f c now s).2 = true ↔
          c.batchSize ≤ (appendSpan c s).2) ∧
    (runArrivals okTransport 0 cexBS3 [10, 11, 12]).2 = 1 ∧
    (runArrivals okTransport 0 cexBS3 [10, 11, 12]).1.attempts = [[10, 11, 12]] ∧
    (runArrivals okTransport 0 cexBS3 [10, 11]).2 = 0 ∧
    (runArrivals okTransport 0 cexBS3 [10, 11]).1.attempts = [] := by
  refine ⟨?_, by decide, by decide, by decide, by decide⟩
  intro f c now s
  simp only [processArrival, appendSpan_batchSize]
  split
  next h => simp [h]
  next h => simp [h]

/-- C6: both triggers set `nextSend = now + batchInterval` before the
send is launched; consequently after a count-triggered flush at time
`now`, a tick at any time `t ≤ now + batchInterval` does not fire the
time trigger; and the tick resolution is one tenth of `batchInterval`. -/
theorem C6_reschedule_before_launch :
    (∀ (f : List Nat → Option String) (c : CState) (now s : Nat),
        (processArrival f c now s).2 = true →
        (processArrival f c now s).1.nextSend = now + c.batchInterval) ∧
    (∀ (f : List Nat → Option String) (c : CState) (now : Nat),
        (processTick f c now).2 = true →
        (processTick f c now).1.nextSend = now + c.batchInterval) ∧
    (∀ (f g : List Nat → Option String) (c : CState) (now s t : Nat),
        (processArrival f c now s).2 = true →
        t ≤ now + c.batchInterval →
        (processTick g (processArrival f c now s).1 t).2 = false) ∧
    (∀ c : CState, tickPeriod c = c.batchInterval / 10) := by
  refine ⟨processArrival_launch_nextSend, processTick_launch_nextSend, ?_,
    fun c => rfl⟩
  intro f g c now s t h1 h2
  have hn := processArrival_launch_nextSend f c now s h1
  have hiff := processTick_fires_iff g (processArrival f c now s).1 t
  cases hcase : (processTick g (processArrival f c now s).1 t).2 with
  | false => rfl
  | true =>
      exfalso
      have hlt := hiff.mp hcase
      rw [hn] at hlt
      omega

/-- Witness for C6: with threshold 1 and a 100ns interval, an arrival at
time 0 launches and reschedules to 100; a tick at the deadline 100 does
not re-fire. -/
theorem C6_reschedule_before_launch_witness :
    (processArrival okTransport cexC6 0 5).1.nextSend = 0 + cexC6.batchInterval ∧
    (processTick okTransport cexC6 7).1.nextSend = 7 + cexC6.batchInterval ∧
    (processTick okTransport (processArrival okTransport cexC6 0 5).1 100).2 = false :=
  ⟨C6_reschedule_before_launch.1 okTransport cexC6 0 5 (by decide),
   C6_reschedule_before_launch.2.1 okTransport cexC6 7 (by decide),
   C6_reschedule_before_launch.2.2.1 okTransport okTransport cexC6 0 5 100
     (by decide) (by decide)⟩

/-- C8: when a span's thrift `Write` fails, `httpSerialize` panics —
the process is aborted instead of the flush failing with an error
result and the batch being retained; with a succeeding encoder it
returns the length-prefixed payload. -/
theorem C8_encode_failure_panics :
    httpSerialize encFail [0] = SerOutcome.panicked "thrift write failed" ∧
    httpSerialize encOk [1, 2] = SerOutcome.ok [12, 2, 1, 2] :=
  ⟨rfl, rfl⟩

/-- C10: `NewHTTPCollector` returns a nil error for every url and every
option list, performing no validation of the destination; a malformed
url surfaces only later, as a per-flush `send` failure that `sendNow`
reports to the diagnostic sink, leaving the buffer unchanged. -/
theorem C10_construction_never_fails :
    (∀ (now : Nat) (url : String) (options : List HTTPOption),
        (NewHTTPCollector now url options).2 = none) ∧
    (∀ (T : Transport) (c : CState) (e : String),
        T.newRequestErr c.url = some e → c.batch ≠ [] →
        (sendNow (send T c.url) c).batch = c.batch ∧
        (sendNow (send T c.url) c).logs = c.logs ++ [LogEvent.sendError e]) := by
  constructor
  · intro now url options
    rfl
  · intro T c e hreq hne
    have hsend : send T c.url c.batch = some e := by
      simp [send, hreq]
    rw [sendNow_of_fail (send T c.url) c e hne hsend]
    exact ⟨rfl, rfl⟩

/-- Witness for C10: a collector built on the malformed url `":"` is
constructed with a nil error; its first flush logs the
request-construction error and keeps the span buffered. -/
theorem C10_construction_never_fails_witness :
    (NewHTTPCollector 0 ":" []).2 = none ∧
    ((sendNow (send badURLTransport cexC10.url) cexC10).batch = cexC10.batch ∧
     (sendNow (send badURLTransport cexC10.url) cexC10).logs =
       cexC10.logs ++ [LogEvent.sendError "parse error: missing protocol scheme"]) :=
  ⟨C10_construction_never_fails.1 0 ":" [],
   C10_construction_never_fails.2 badURLTransport cexC10
     "parse error: missing protocol scheme" rfl (by decide)⟩

/-- C2: for every event trace on a fresh collector in which no eviction
occurs and each `sendNow` runs without interleaved appends, the batches
delivered by the successful flushes, concatenated, followed by the
remaining buffer, equal the appended spans in order; once the buffer is
drained the delivered concatenation is exactly the appended sequence;
and each transport success removes from the buffer's head exactly the
first `len(sendBatch)` elements, which are exactly the spans sent. -/
theorem C2_fifo_ordering (ops : List Op) (url : String)
    (hnoovf : (runOps (initialCollector url) ops).evictedCount = 0) :
    ((runOps (initialCollector url) ops).delivered.flatten ++
        (runOps (initialCollector url) ops).batch =
      (runOps (initialCollector url) ops).appended) ∧
    ((runOps (initialCollector url) ops).appended = opsSpans ops) ∧
    ((runOps (initialCollector url) ops).batch = [] →
      (runOps (initialCollector url) ops).delivered.flatten = opsSpans ops) ∧
    (∀ (f : List Nat → Option String) (c : CState),
        c.batch ≠ [] → f c.batch = none →
        (sendNow f c).batch = c.batch.drop c.batch.length ∧
        (sendNow f c).delivered =
          c.delivered ++ [c.batch.take c.batch.length]) := by
  have happ := runOps_appended ops (initialCollector url)
  have hinv : BufInv (runOps (initialCollector url) ops) := by
    apply runOps_inv
    · rfl
    · rw [hnoovf]
      rfl
  have happ2 : (runOps (initialCollector url) ops).appended = opsSpans ops := by
    rw [happ]
    rfl
  refine ⟨hinv, happ2, ?_, ?_⟩
  · intro hempty
    have h2 : (runOps (initialCollector url) ops).delivered.flatten ++
        (runOps (initialCollector url) ops).batch =
        (runOps (initialCollector url) ops).appended := hinv
    rw [hempty, List.append_nil, happ2] at h2
    exact h2
  · intro f c hne hf
    rw [sendNow_of_ok f c hne hf]
    exact ⟨rfl, by rw [List.take_length]⟩

/-- Witness for C2: a concrete overflow-free trace with two successful
flushes delivers `[1, 2]` then `[3]`, concatenating to the appended
order, and a concrete successful send removes exactly what it sent. -/
theorem C2_fifo_ordering_witness :
    ((runOps (initialCollector "u")
        [Op.arrive 1, Op.arrive 2, Op.flush true, Op.arrive 3,
         Op.flush true]).delivered.flatten ++
      (runOps (initialCollector "u")
        [Op.arrive 1, Op.arrive 2, Op.flush true, Op.arrive 3,
         Op.flush true]).batch =
      (runOps (initialCollector "u")
        [Op.arrive 1, Op.arrive 2, Op.flush true, Op.arrive 3,
         Op.flush true]).appended) ∧
    ((sendNow okTransport cexC3).batch =
        cexC3.batch.drop cexC3.batch.length ∧
     (sendNow okTransport cexC3).delivered =
        cexC3.delivered ++ [cexC3.batch.take cexC3.batch.length]) :=
  ⟨(C2_fifo_ordering
      [Op.arrive 1, Op.arrive 2, Op.flush true, Op.arrive 3, Op.flush true]
      "u" (by decide)).1,
   (C2_fifo_ordering
      [Op.arrive 1, Op.arrive 2, Op.flush true, Op.arrive 3, Op.flush true]
      "u" (by decide)).2.2.2 okTransport cexC3 (by decide) rfl⟩

/-- C3: a flush whose transport delivery fails leaves the buffer
completely unchanged, reports the error only to the diagnostic sink
(delivery history unchanged), never surfaces an error to a `Collect`
caller, and the unsent spans stay ahead of later arrivals in the next
flush attempt's snapshot. -/
theorem C3_transport_failure_retains_buffer
    (f : List Nat → Option String) (c : CState) (e : String)
    (hne : c.batch ≠ []) (hf : f c.batch = some e) :
    (sendNow f c).batch = c.batch ∧
    (sendNow f c).logs = c.logs ++ [LogEvent.sendError e] ∧
    (sendNow f c).delivered = c.delivered ∧
    (∀ (c2 : CState) (s : Nat), Collect c2 s = none) ∧
    (∀ ys : List Nat, c.batch.length + ys.length ≤ c.maxBacklog →
        (appendAll (sendNow f c) ys).batch = c.batch ++ ys) := by
  have hrec := sendNow_of_fail f c e hne hf
  have hb : (sendNow f c).batch = c.batch := by rw [hrec]
  have hm : (sendNow f c).maxBacklog = c.maxBacklog := by rw [hrec]
  refine ⟨hb, by rw [hrec], by rw [hrec], fun c2 s => rfl, ?_⟩
  intro ys hlen
  rw [appendAll_no_evict ys (sendNow f c) (by rw [hb, hm]; exact hlen)]
  show (sendNow f c).batch ++ ys = c.batch ++ ys
  rw [hb]

/-- Witness for C3: a failed flush of `[1, 2]` keeps the buffer, logs
the error, delivers nothing, and the next snapshot after a new arrival
is `[1, 2, 3]`. -/
theorem C3_transport_failure_retains_buffer_witness :
    (sendNow failingTransport cexC3).batch = cexC3.batch ∧
    (sendNow failingTransport cexC3).logs =
      cexC3.logs ++ [LogEvent.sendError "connection refused"] ∧
    (sendNow failingTransport cexC3).delivered = cexC3.delivered ∧
    Collect cexC3 9 = none ∧
    (appendAll (sendNow failingTransport cexC3) [3]).batch =
      cexC3.batch ++ [3] := by
  have h := C3_transport_failure_retains_buffer failingTransport cexC3
    "connection refused" (by decide) rfl
  exact ⟨h.1, h.2.1, h.2.2.1, h.2.2.2.1 cexC3 9, h.2.2.2.2 [3] (by decide)⟩

/-- C4: every append goes at the tail; an overflowing append drops
exactly `newLength - maxBacklog` spans from the head and reports that
count to the diagnostic sink; after any mutation the batch length is at
most `maxBacklog` (appends are clamped and sends only shrink the
buffer); and appending `maxBacklog + k` spans to a fresh collector with
no flush leaves exactly the last `maxBacklog` spans with `k` evictions
counted. -/
theorem C4_backlog_eviction :
    (∀ (c : CState) (s : Nat), c.batch.length + 1 ≤ c.maxBacklog →
        (appendSpan c s).1.batch = c.batch ++ [s] ∧
        (appendSpan c s).1.logs = c.logs) ∧
    (∀ (c : CState) (s : Nat), c.maxBacklog < c.batch.length + 1 →
        (appendSpan c s).1.batch =
          (c.batch ++ [s]).drop (c.batch.length + 1 - c.maxBacklog) ∧
        (appendSpan c s).1.logs =
          c.logs ++ [LogEvent.disposed (c.batch.length + 1 - c.maxBacklog)]) ∧
    (∀ (c : CState) (s : Nat),
        (appendSpan c s).1.batch.length ≤ c.maxBacklog) ∧
    (∀ (f : List Nat → Option String) (c : CState),
        (sendNow f c).batch.length ≤ c.batch.length) ∧
    (∀ (url : String) (m k : Nat) (xs : List Nat), xs.length = m + k →
        (appendAll { initialCollector url with maxBacklog := m } xs).batch =
          xs.drop k ∧
        (appendAll { initialCollector url with maxBacklog := m }
          xs).evictedCount = k) := by
  refine ⟨?_, ?_, appendSpan_length_le, sendNow_length_le, ?_⟩
  · intro c s h
    rw [appendSpan_of_le c s h]
    exact ⟨rfl, rfl⟩
  · intro c s h
    rw [appendSpan_of_evict c s h]
    exact ⟨rfl, rfl⟩
  · intro url m k xs hx
    obtain ⟨hb, he⟩ := appendAll_overflow xs
      { initialCollector url with maxBacklog := m } (by simp [initialCollector])
    constructor
    · rw [hb]
      show (([] : List Nat) ++ xs).drop
        ((List.length ([] : List Nat)) + xs.length - m) = xs.drop k
      rw [List.nil_append, List.length_nil]
      congr 1
      omega
    · rw [he]
      show 0 + ((List.length ([] : List Nat)) + xs.length - m) = k
      rw [List.length_nil]
      omega

/-- Witness for C4: a non-overflowing append keeps all spans; appending
to a full capacity-2 buffer evicts one span from the head and logs it;
and appending 3 spans at capacity 2 leaves the last 2 with one
eviction. -/
theorem C4_backlog_eviction_witness :
    ((appendSpan (initialCollector "u") 1).1.batch =
        (initialCollector "u").batch ++ [1] ∧
     (appendSpan (initialCollector "u") 1).1.logs =
        (initialCollector "u").logs) ∧
    ((appendSpan cexC4 3).1.batch =
        (cexC4.batch ++ [3]).drop (cexC4.batch.length + 1 - cexC4.maxBacklog) ∧
     (appendSpan cexC4 3).1.logs =
        cexC4.logs ++
          [LogEvent.disposed (cexC4.batch.length + 1 - cexC4.maxBacklog)]) ∧
    ((appendAll { initialCollector "u" with maxBacklog := 2 }
        [1, 2, 3]).batch = [1, 2, 3].drop 1 ∧
     (appendAll { initialCollector "u" with maxBacklog := 2 }
        [1, 2, 3]).evictedCount = 1) :=
  ⟨C4_backlog_eviction.1 (initialCollector "u") 1 (by decide),
   C4_backlog_eviction.2.1 cexC4 3 (by decide),
   C4_backlog_eviction.2.2.2.2 "u" 2 1 [1, 2, 3] (by decide)⟩

/-- C7: appending `N < batchSize` spans (within capacity) launches no
send; the quit branch then performs exactly one synchronous `sendNow`
covering all `N` buffered spans (one attempt containing them all)
before the shutdown value is produced, and on transport success they
are all delivered and the buffer drained before `Close` returns. -/
theorem C7_drain_on_close (f g : List Nat → Option String) (now : Nat)
    (c : CState) (xs : List Nat)
    (h0 : c.batch = []) (hbs : xs.length < c.batchSize)
    (hmb : xs.length ≤ c.maxBacklog) (hne : xs ≠ []) :
    (runArrivals f now c xs).2 = 0 ∧
    (runArrivals f now c xs).1.batch = xs ∧
    (Close g (runArrivals f now c xs).1).2 = none ∧
    (Close g (runArrivals f now c xs).1).1.attempts = c.attempts ++ [xs] ∧
    (g xs = none →
      (Close g (runArrivals f now c xs).1).1.delivered =
        c.delivered ++ [xs] ∧
      (Close g (runArrivals f now c xs).1).1.batch = []) := by
  have hrun := runArrivals_no_trigger xs c f now
    (by simp only [h0, List.length_nil, Nat.zero_add]; exact hbs)
    (by simp only [h0, List.length_nil, Nat.zero_add]; exact hmb)
  have hb : (runArrivals f now c xs).1.batch = xs := by
    rw [hrun]
    show c.batch ++ xs = xs
    rw [h0, List.nil_append]
  have hat : (runArrivals f now c xs).1.attempts = c.attempts := by rw [hrun]
  have hdl : (runArrivals f now c xs).1.delivered = c.delivered := by rw [hrun]
  have hne2 : (runArrivals f now c xs).1.batch ≠ [] := by
    rw [hb]
    exact hne
  obtain ⟨q1, q2, q3⟩ := close_drain g (runArrivals f now c xs).1 hne2
  refine ⟨by rw [hrun], hb, q1, ?_, ?_⟩
  · rw [q2, hb, hat]
  · intro hg
    obtain ⟨r1, r2⟩ := q3 (by rw [hb]; exact hg)
    exact ⟨by rw [r1, hdl, hb], r2⟩

/-- Witness for C7: two spans below the threshold of 3, then `Close`:
no send was launched by the arrivals, and the close-time drain attempts
and delivers exactly `[1, 2]`, emptying the buffer. -/
theorem C7_drain_on_close_witness :
    (runArrivals okTransport 0 cexBS3 [1, 2]).2 = 0 ∧
    (runArrivals okTransport 0 cexBS3 [1, 2]).1.batch = [1, 2] ∧
    (Close okTransport (runArrivals okTransport 0 cexBS3 [1, 2]).1).2 = none ∧
    (Close okTransport
        (runArrivals okTransport 0 cexBS3 [1, 2]).1).1.attempts =
      cexBS3.attempts ++ [[1, 2]] ∧
    ((Close okTransport
        (runArrivals okTransport 0 cexBS3 [1, 2]).1).1.delivered =
      cexBS3.delivered ++ [[1, 2]] ∧
     (Close okTransport
        (runArrivals okTransport 0 cexBS3 [1, 2]).1).1.batch = []) := by
  have h := C7_drain_on_close okTransport okTransport 0 cexBS3 [1, 2]
    rfl (by decide) (by decide) (by decide)
  exact ⟨h.1, h.2.1, h.2.2.1, h.2.2.2.1, h.2.2.2.2 rfl⟩

/-- C9: in every reachable interleaving of `sendNow` tasks, at most one
is inside its serialize-and-transport section at any time; and spans
that accumulate while a send completes form exactly the next send's
snapshot. -/
theorem C9_at_most_one_send_in_flight :
    (∀ s : MState, MReach s → s.sending ≤ 1) ∧
    (∀ (f : List Nat → Option String) (c : CState) (ys : List Nat),
        c.batch ≠ [] → f c.batch = none →
        ys.length ≤ c.maxBacklog →
        (appendAll (sendNow f c) ys).batch = ys) := by
  constructor
  · intro s hs
    rw [mreach_locked_sending hs]
    split <;> omega
  · intro f c ys hne hf hlen
    rw [sendNow_of_ok f c hne hf]
    rw [appendAll_no_evict ys _ (by
      show (c.batch.drop c.batch.length).length + ys.length ≤ c.maxBacklog
      simp only [List.drop_length, List.length_nil, Nat.zero_add]
      exact hlen)]
    show c.batch.drop c.batch.length ++ ys = ys
    rw [List.drop_length, List.nil_append]

/-- Witness for C9: the start state has no send in flight, and after a
successful send of `[1, 2]` a newly arrived span `[3]` is exactly the
next snapshot. -/
theorem C9_at_most_one_send_in_flight_witness :
    MState.start.sending ≤ 1 ∧
    (appendAll (sendNow okTransport cexC3) [3]).batch = [3] :=
  ⟨C9_at_most_one_send_in_flight.1 MState.start MReach.start,
   C9_at_most_one_send_in_flight.2 okTransport cexC3 [3] (by decide) rfl
     (by decide)⟩

end ZipkinCollector
